import Mathlib

/-!
# Verification of the HHe+ Hartree-Fock program (`HF.py`)

A shallow embedding of the numeric pipeline of the program into Lean over the
real numbers: primitive Gaussian integrals, the error-function approximation,
the STO-nG basis contraction and AO-integral assembly, the Hamiltonian /
orthogonalization assembly (`Collect`), the 2x2 Jacobi diagonalizer (`Diag`)
and the SCF fixed-point iteration (`SCF`), together with theorems settling the
specification claims about them.

Python floating-point arithmetic is modelled by exact real arithmetic; the
fallible numpy table indexing in `AO_Integral` is modelled with `Except`.
Definitions follow the source line by line (Python operator precedence is
reproduced, e.g. `np.pi / (Alpha + Beta) ** 1.5` is `pi / (a+b) ^ (1.5)`).
-/

namespace HF

/-! ## Primitive integrals (`HF.py` lines 36-130) -/

/-- `OverLap_S_int` (`HF.py` line 36): `(np.pi / (Alpha + Beta) ** 1.5) *
np.exp(-Alpha * Beta / (Alpha + Beta) * R2_ab)`.  Note that in Python the
power binds tighter than the division, so only `(Alpha + Beta)` is raised to
the 1.5 power. -/
noncomputable def OverLap_S_int (Alpha Beta R2_ab : ℝ) : ℝ :=
  Real.pi / (Alpha + Beta) ^ (1.5 : ℝ) *
    Real.exp (-Alpha * Beta / (Alpha + Beta) * R2_ab)

/-- `Kinetic_T_int` (`HF.py` line 49).  The parenthesisation of the source is
kept exactly: the factor `np.pi / (Alpha + Beta) ** 1.5 * np.exp (...)`
multiplies only the subtracted term `(2.0 * Alpha * Beta / (Alpha + Beta) *
R2_ab)` inside `(3.0 - ...)`. -/
noncomputable def Kinetic_T_int (Alpha Beta R2_ab : ℝ) : ℝ :=
  Alpha * Beta / (Alpha + Beta) *
    (3.0 -
      (2.0 * Alpha * Beta / (Alpha + Beta) * R2_ab) * Real.pi /
          (Alpha + Beta) ^ (1.5 : ℝ) *
        Real.exp (-Alpha * Beta * R2_ab / (Alpha + Beta)))

/-- `erf` (`HF.py` line 102): Abramowitz-Stegun rational approximation with
`P = 0.3275911`, `A = [0.254829592, -0.284496736, 1.421413741, -1.453152027,
1.061405429]`, `T = 1/(1 + P*t)`, polynomial accumulated over
`i in range(5)` as `A[i] * T ** (i+1)`. -/
noncomputable def erf (t : ℝ) : ℝ :=
  let P : ℝ := 0.3275911
  let A : List ℝ := [0.254829592, -0.284496736, 1.421413741, -1.453152027, 1.061405429]
  let T : ℝ := 1.0 / (1 + P * t)
  let Polynomial : ℝ :=
    (List.range 5).foldl (fun acc i => acc + A.getD i 0 * T ^ (i + 1)) 0.0
  1.0 - Polynomial * Real.exp (-t * t)

/-- `F0` (`HF.py` line 91): Boys function, Taylor branch below `1e-6`. -/
noncomputable def F0 (t : ℝ) : ℝ :=
  if t < 1e-6 then 1.0 - t / 3.0
  else 0.5 * (Real.pi / t) ^ (0.5 : ℝ) * erf (t ^ (0.5 : ℝ))

/-- `Potential_V_int` (`HF.py` line 70). -/
noncomputable def Potential_V_int (Alpha Beta Zc R2_ab R2_pc : ℝ) : ℝ :=
  -2.0 * Real.pi / (Alpha + Beta) * Zc *
      Real.exp (-Alpha * Beta * R2_ab / (Alpha + Beta)) *
    F0 ((Alpha + Beta) * R2_pc)

/-- `TwoE_int` (`HF.py` line 115). -/
noncomputable def TwoE_int (Alpha Beta Gamma Delta R2_ab R2_cd R2_pq : ℝ) : ℝ :=
  2.0 * Real.pi ^ (2.5 : ℝ) /
      ((Alpha + Beta) * (Gamma + Delta) * Real.sqrt (Alpha + Beta + Gamma + Delta)) *
    Real.exp (-Alpha * Beta * R2_ab / (Alpha + Beta)
      - Gamma * Delta * R2_cd / (Gamma + Delta)) *
    F0 ((Alpha + Beta) * (Gamma + Delta) * R2_pq / (Alpha + Beta + Gamma + Delta))

/-! ## The overlap and kinetic formulas as the specification states them -/

/-- The overlap value stated by the spec: `(pi/(alpha+beta))^1.5 *
exp(-alpha*beta/(alpha+beta)*R2_ab)` (the 1.5 power applied to the whole
quotient).  Used only for comparison with `OverLap_S_int`. -/
noncomputable def OverLap_S_spec (Alpha Beta R2_ab : ℝ) : ℝ :=
  (Real.pi / (Alpha + Beta)) ^ (1.5 : ℝ) *
    Real.exp (-Alpha * Beta / (Alpha + Beta) * R2_ab)

/-- The kinetic value stated by the spec: the prefactor
`alpha*beta/(alpha+beta) * (3 - 2*alpha*beta/(alpha+beta)*R2_ab)` multiplied
by the full overlap-style factor `(pi/(alpha+beta))^1.5 * exp(...)`.  Used
only for comparison with `Kinetic_T_int`. -/
noncomputable def Kinetic_T_spec (Alpha Beta R2_ab : ℝ) : ℝ :=
  Alpha * Beta / (Alpha + Beta) * (3.0 - 2.0 * Alpha * Beta / (Alpha + Beta) * R2_ab) *
    (Real.pi / (Alpha + Beta)) ^ (1.5 : ℝ) *
    Real.exp (-Alpha * Beta * R2_ab / (Alpha + Beta))

/-! ## Facts about pi used to separate the two formula variants -/

lemma one_lt_pi : (1 : ℝ) < Real.pi := by
  have h := Real.pi_gt_three
  linarith

lemma pi_half_gt_one : (1 : ℝ) < Real.pi / 2 := by
  have h := Real.pi_gt_three
  linarith

/-- C1 -- The program's overlap integral at `alpha = beta = 1`, `R2 = 0`
evaluates to `pi / 2 ^ 1.5`, whereas the claimed formula
`(pi/(alpha+beta))^1.5 * exp(...)` evaluates to `(pi/2) ^ 1.5`; the two
values differ, so the code disagrees with the claimed closed form. -/
theorem c1_overlap_code_bug :
    OverLap_S_int 1 1 0 = Real.pi / (2 : ℝ) ^ (1.5 : ℝ) ∧
    OverLap_S_spec 1 1 0 = (Real.pi / 2) ^ (1.5 : ℝ) ∧
    OverLap_S_int 1 1 0 ≠ OverLap_S_spec 1 1 0 := by
  have hcode : OverLap_S_int 1 1 0 = Real.pi / (2 : ℝ) ^ (1.5 : ℝ) := by
    unfold OverLap_S_int
    norm_num
  have hspec : OverLap_S_spec 1 1 0 = (Real.pi / 2) ^ (1.5 : ℝ) := by
    unfold OverLap_S_spec
    norm_num
  refine ⟨hcode, hspec, ?_⟩
  rw [hcode, hspec]
  have h2pos : (0 : ℝ) < (2 : ℝ) ^ (1.5 : ℝ) := Real.rpow_pos_of_pos (by norm_num) _
  have hlt : Real.pi / (2 : ℝ) ^ (1.5 : ℝ) < (Real.pi / 2) ^ (1.5 : ℝ) := by
    have hsplit : (Real.pi / 2) ^ (1.5 : ℝ) = Real.pi ^ (1.5 : ℝ) / (2 : ℝ) ^ (1.5 : ℝ) :=
      Real.div_rpow (le_of_lt Real.pi_pos) (by norm_num) _
    rw [hsplit]
    have hexp : Real.pi < Real.pi ^ (1.5 : ℝ) := by
      have h1 : Real.pi ^ (1 : ℝ) < Real.pi ^ (1.5 : ℝ) :=
        Real.rpow_lt_rpow_of_exponent_lt one_lt_pi (by norm_num)
      rwa [Real.rpow_one] at h1
    exact (div_lt_div_iff_of_pos_right h2pos).mpr hexp
  exact ne_of_lt hlt

/-- C2 -- The program's kinetic integral at `alpha = beta = 1`, `R2 = 0`
evaluates to `3/2` (the overlap-style factor is multiplied only into the
subtracted term, which vanishes at `R2 = 0`), whereas the claimed form
applies `(pi/(alpha+beta))^1.5 * exp(...)` to the whole prefactor and
evaluates to `3/2 * (pi/2)^1.5`; the two values differ. -/
theorem c2_kinetic_code_bug :
    Kinetic_T_int 1 1 0 = 3 / 2 ∧
    Kinetic_T_spec 1 1 0 = 3 / 2 * (Real.pi / 2) ^ (1.5 : ℝ) ∧
    Kinetic_T_int 1 1 0 ≠ Kinetic_T_spec 1 1 0 := by
  have hcode : Kinetic_T_int 1 1 0 = 3 / 2 := by
    unfold Kinetic_T_int
    norm_num
  have hspec : Kinetic_T_spec 1 1 0 = 3 / 2 * (Real.pi / 2) ^ (1.5 : ℝ) := by
    unfold Kinetic_T_spec
    norm_num [Real.exp_zero]
  refine ⟨hcode, hspec, ?_⟩
  rw [hcode, hspec]
  have hgt : (1 : ℝ) < (Real.pi / 2) ^ (1.5 : ℝ) :=
    (Real.one_lt_rpow_iff_of_pos (by positivity)).mpr (Or.inl ⟨pi_half_gt_one, by norm_num⟩)
  nlinarith [hgt]

/-- C8 -- `erf 0` is not exactly `0`: the five Abramowitz-Stegun coefficients
sum to `0.999999999` exactly, so `1 - polynomial * exp(0) = 10^-9`. -/
theorem c8_erf_zero :
    erf 0 = 1 / 1000000000 := by
  unfold erf
  norm_num [List.range_succ, Real.exp_zero]

/-- C8 counterexample -- the claim `erf 0 = 0` is false. -/
theorem c8_counterexample : erf 0 ≠ 0 := by
  unfold erf
  norm_num [List.range_succ, Real.exp_zero]

/-! ## Basis contraction and AO-integral assembly (`HF.py` lines 137-394)

numpy array indexing (`Expont[N - 1, i]`) raises `IndexError` when the index
is outside `[-len, len)` and wraps negative indices; this fallibility is
modelled with `Except String`. -/

/-- numpy-style indexing of a list: valid for `-len <= i < len`, a negative
index counts from the end, anything else raises. -/
def npGetList {α : Type} (l : List α) (i : ℤ) : Except String α :=
  if h : 0 ≤ i ∧ i < (l.length : ℤ) then
    .ok (l.get ⟨i.toNat, by omega⟩)
  else if h2 : -(l.length : ℤ) ≤ i ∧ i < 0 then
    .ok (l.get ⟨(i + l.length).toNat, by omega⟩)
  else .error "index out of range"

/-- Two-dimensional numpy-style indexing (row first, as in `tbl[r, c]`). -/
def npGet2 (tbl : List (List ℝ)) (r c : ℤ) : Except String ℝ :=
  match npGetList tbl r with
  | .ok row => npGetList row c
  | .error e => .error e

/-- `Coefft` table (`HF.py` line 166). -/
noncomputable def Coefft : List (List ℝ) :=
  [[1.00000, 0.0000000, 0.000000],
   [0.678914, 0.430129, 0.000000],
   [0.444635, 0.535328, 0.154329]]

/-- `Expont` table (`HF.py` line 174). -/
noncomputable def Expont : List (List ℝ) :=
  [[0.270950, 0.000000, 0.000000],
   [0.151623, 0.851819, 0.000000],
   [0.109818, 0.405771, 2.227660]]

/-- One pass of the contraction loop (`HF.py` lines 189-193) for one atom:
for each `i` read `Expont[Nrow, i]`, scale by `Zeta ** 2`, and normalize the
tabulated coefficient by `(2 * exponent / pi) ** 0.75`; the first failing
table read aborts the loop. -/
noncomputable def contractAux (Nrow : ℤ) (Zeta : ℝ) : List ℕ → Except String (List (ℝ × ℝ))
  | [] => .ok []
  | i :: rest =>
    match npGet2 Expont Nrow (i : ℤ) with
    | .error e => .error e
    | .ok e0 =>
      match npGet2 Coefft Nrow (i : ℤ) with
      | .error e => .error e
      | .ok c0 =>
        match contractAux Nrow Zeta rest with
        | .error e => .error e
        | .ok l =>
          .ok ((e0 * Zeta ^ 2, c0 * (2.0 * (e0 * Zeta ^ 2) / Real.pi) ^ (0.75 : ℝ)) :: l)

/-- The contracted primitives (exponent, coefficient) of one atom: the loop
`for i in range(N)` reading row `N - 1` of the tables.  `range(N)` is empty
for `N <= 0`, exactly as in Python. -/
noncomputable def contract (N : ℤ) (Zeta : ℝ) : Except String (List (ℝ × ℝ)) :=
  contractAux (N - 1) Zeta (List.range N.toNat)

/-- The sixteen AO-level integrals accumulated by `AO_Integral`
(`HF.py` lines 144-161). -/
structure IntegralSet where
  S12 : ℝ
  T11 : ℝ
  T12 : ℝ
  T22 : ℝ
  V11H : ℝ
  V12H : ℝ
  V22H : ℝ
  V11He : ℝ
  V12He : ℝ
  V22He : ℝ
  V1111 : ℝ
  V2111 : ℝ
  V2121 : ℝ
  V2211 : ℝ
  V2221 : ℝ
  V2222 : ℝ

/-- All sixteen accumulators initialized to `0.0` (`HF.py` line 161). -/
def IS0 : IntegralSet := ⟨0, 0, 0, 0, 0, 0, 0, 0, 0, 0, 0, 0, 0, 0, 0, 0⟩

/-- One `(i, j)` step of the one-electron accumulation loop
(`HF.py` lines 197-262). -/
noncomputable def oneEStep (R R2 Z_H Z_He : ℝ) (eH cH eHe cHe : ℕ → ℝ)
    (s : IntegralSet) (i j : ℕ) : IntegralSet :=
  let R_ap := eHe j * R / (eH i + eHe j)
  let R2_ap := R_ap ^ 2
  let R2_bp := (R - R_ap) ^ 2
  { s with
    S12 := s.S12 + OverLap_S_int (eH i) (eHe j) R2 * cH i * cHe j
    T11 := s.T11 + Kinetic_T_int (eH i) (eH j) 0.0 * cH i * cH j
    T12 := s.T12 + Kinetic_T_int (eH i) (eHe j) R2 * cH i * cHe j
    T22 := s.T22 + Kinetic_T_int (eHe i) (eHe j) 0.0 * cHe i * cHe j
    V11H := s.V11H + Potential_V_int (eH i) (eH j) Z_H 0.0 0.00 * cH i * cH j
    V12H := s.V12H + Potential_V_int (eH i) (eHe j) Z_H R2 R2_ap * cH i * cHe j
    V22H := s.V22H + Potential_V_int (eHe i) (eHe j) Z_H 0.0 R2 * cHe i * cHe j
    V11He := s.V11He + Potential_V_int (eH i) (eH j) Z_He 0.0 R2 * cH i * cH j
    V12He := s.V12He + Potential_V_int (eH i) (eHe j) Z_He R2 R2_bp * cH i * cHe j
    V22He := s.V22He + Potential_V_int (eHe i) (eHe j) Z_He 0.0 0.0 * cHe i * cHe j }

/-- One `(i, j, k, l)` step of the two-electron accumulation loop
(`HF.py` lines 265-375). -/
noncomputable def twoEStep (R R2 : ℝ) (eH cH eHe cHe : ℕ → ℝ)
    (s : IntegralSet) (i j k l : ℕ) : IntegralSet :=
  let R_ap := eHe i * R / (eHe i + eH j)
  let R_bp := R - R_ap
  let R_aq := eHe k * R / (eHe k + eH l)
  let R_bq := R - R_aq
  let R2_ap := R_ap ^ 2
  let _R2_bp := R_bp ^ 2
  let _R2_aq := R_aq * R_aq
  let R2_bq := R_bq * R_bq
  let R_pq := R_ap - R_aq
  let R2_pq := R_pq * R_pq
  { s with
    V1111 := s.V1111 +
      TwoE_int (eH i) (eH j) (eH k) (eH l) 0.0 0.0 0.0 * cH i * cH j * cH k * cH l
    V2111 := s.V2111 +
      TwoE_int (eHe i) (eH j) (eH k) (eH l) R2 0.0 R2_ap * cHe i * cH j * cH k * cH l
    V2121 := s.V2121 +
      TwoE_int (eHe i) (eH j) (eHe k) (eH l) R2 R2 R2_pq * cHe i * cH j * cHe k * cH l
    V2211 := s.V2211 +
      TwoE_int (eHe i) (eHe j) (eH k) (eH l) 0.0 0.0 R2 * cHe i * cHe j * cH k * cH l
    V2221 := s.V2221 +
      TwoE_int (eHe i) (eHe j) (eHe k) (eH l) 0.0 R2 R2_bq * cHe i * cHe j * cHe k * cH l
    V2222 := s.V2222 +
      TwoE_int (eHe i) (eHe j) (eHe k) (eHe l) 0.0 0.0 0.0 * cHe i * cHe j * cHe k * cHe l }

/-- The nested accumulation loops of `AO_Integral`: the `N^2` one-electron
pairs followed by the `N^4` two-electron quadruples. -/
noncomputable def AO_assemble (n : ℕ) (R R2 Z_H Z_He : ℝ) (eH cH eHe cHe : ℕ → ℝ) :
    IntegralSet :=
  let s1 := (List.range n).foldl (fun s i =>
    (List.range n).foldl (fun s j => oneEStep R R2 Z_H Z_He eH cH eHe cHe s i j) s) IS0
  (List.range n).foldl (fun s i =>
    (List.range n).foldl (fun s j =>
      (List.range n).foldl (fun s k =>
        (List.range n).foldl (fun s l => twoEStep R R2 eH cH eHe cHe s i j k l) s) s) s) s1

/-- `AO_Integral` (`HF.py` line 137): contract the two atoms' primitives
(falling over on a bad table index exactly where numpy would), then assemble
the sixteen AO integrals.  The primitive lists have length `N.toNat`, and
every loop index stays below that length, so the `getD` default is never
reached. -/
noncomputable def AO_Integral (N : ℤ) (R Zeta1 Zeta2 Z_H Z_He : ℝ) :
    Except String IntegralSet :=
  match contract N Zeta1, contract N Zeta2 with
  | .error e, _ => .error e
  | .ok _, .error e => .error e
  | .ok gH, .ok gHe =>
    .ok (AO_assemble N.toNat R (R * R) Z_H Z_He
      (fun i => (gH.getD i (0, 0)).1) (fun i => (gH.getD i (0, 0)).2)
      (fun i => (gHe.getD i (0, 0)).1) (fun i => (gHe.getD i (0, 0)).2))

lemma npGetList_err_of_ge {α : Type} (l : List α) (i : ℤ) (h : (l.length : ℤ) ≤ i) :
    npGetList l i = .error "index out of range" := by
  unfold npGetList
  rw [dif_neg (by omega), dif_neg (by omega)]

lemma contractAux_err (Nrow : ℤ) (z : ℝ) (hrow : 3 ≤ Nrow) (i : ℕ) (rest : List ℕ) :
    contractAux Nrow z (i :: rest) = .error "index out of range" := by
  have hE : npGet2 Expont Nrow (i : ℤ) = .error "index out of range" := by
    unfold npGet2
    rw [npGetList_err_of_ge Expont Nrow (by norm_num [Expont]; omega)]
  unfold contractAux
  rw [hE]

lemma contract_err (N : ℤ) (z : ℝ) (hN : 4 ≤ N) :
    contract N z = .error "index out of range" := by
  obtain ⟨k, hk⟩ : ∃ k, N.toNat = k + 1 := ⟨N.toNat - 1, by omega⟩
  unfold contract
  rw [hk, List.range_succ_eq_map]
  exact contractAux_err (N - 1) z (by omega) 0 _

lemma contract_nonpos (N : ℤ) (z : ℝ) (hN : N ≤ 0) : contract N z = .ok [] := by
  unfold contract
  rw [Int.toNat_of_nonpos hN]
  rfl

/-- C4 (amended) -- `AO_Integral` never fails for `N` in `{1,2,3}`; for
`N >= 4` it fails with an index error raised by the contraction-table lookup,
before any integral evaluation; but for `N <= 0` it does **not** fail: the
loops simply do not run and all sixteen integrals come back `0`. -/
theorem c4_AO_Integral_validity (N : ℤ) (R Zeta1 Zeta2 Z_H Z_He : ℝ) :
    ((N = 1 ∨ N = 2 ∨ N = 3) → ∃ v, AO_Integral N R Zeta1 Zeta2 Z_H Z_He = .ok v) ∧
    (4 ≤ N → ∃ e, AO_Integral N R Zeta1 Zeta2 Z_H Z_He = .error e) ∧
    (N ≤ 0 → AO_Integral N R Zeta1 Zeta2 Z_H Z_He = .ok IS0) := by
  refine ⟨?_, ?_, ?_⟩
  · rintro (rfl | rfl | rfl)
    · exact ⟨_, rfl⟩
    · exact ⟨_, rfl⟩
    · exact ⟨_, rfl⟩
  · intro h4
    unfold AO_Integral
    rw [contract_err N Zeta1 h4]
    exact ⟨_, rfl⟩
  · intro h0
    unfold AO_Integral
    rw [contract_nonpos N Zeta1 h0, contract_nonpos N Zeta2 h0,
      Int.toNat_of_nonpos h0]
    rfl

/-- C4 witness -- instances of the three branches at concrete inputs. -/
theorem c4_AO_Integral_validity_witness :
    (((1 : ℤ) = 1 ∨ (1 : ℤ) = 2 ∨ (1 : ℤ) = 3) ∧
      ∃ v, AO_Integral 1 1 1 1 1 1 = .ok v) ∧
    ((4 : ℤ) ≤ 4 ∧ ∃ e, AO_Integral 4 1 1 1 1 1 = .error e) ∧
    ((0 : ℤ) ≤ 0 ∧ AO_Integral 0 1 1 1 1 1 = .ok IS0) :=
  ⟨⟨Or.inl rfl, (c4_AO_Integral_validity 1 1 1 1 1 1).1 (Or.inl rfl)⟩,
   ⟨le_refl 4, (c4_AO_Integral_validity 4 1 1 1 1 1).2.1 (le_refl 4)⟩,
   ⟨le_refl 0, (c4_AO_Integral_validity 0 1 1 1 1 1).2.2 (le_refl 0)⟩⟩

/-- C4 counterexample -- at `N = 0` (outside `{1,2,3}`) the claim demands an
invalid-input failure, but the code succeeds and returns all-zero integrals
(shown at the program's own geometry `R = 1.4632`, `Zeta1 = 2.0925`,
`Zeta2 = 1.24`, `Z_H = 1`, `Z_He = 2`). -/
theorem c4_counterexample :
    AO_Integral 0 1.4632 2.0925 1.24 1 2 = .ok IS0 ∧
    ∀ e : String, AO_Integral 0 1.4632 2.0925 1.24 1 2 ≠ .error e := by
  have h : AO_Integral 0 1.4632 2.0925 1.24 1 2 = .ok IS0 := by
    unfold AO_Integral
    rw [contract_nonpos 0 2.0925 (by norm_num), contract_nonpos 0 1.24 (by norm_num)]
    rfl
  exact ⟨h, fun e he => by rw [h] at he; exact Except.noConfusion he⟩

/-! ## 2x2 matrices, the two-electron tensor, and `Collect`
(`HF.py` lines 401-465) -/

/-- A 2x2 real matrix; field `mij` is entry `[i, j]`. -/
structure M2 where
  m00 : ℝ
  m01 : ℝ
  m10 : ℝ
  m11 : ℝ

/-- Matrix product, as computed entrywise by `np.matmul` on 2x2 arrays. -/
noncomputable def M2.mul (A B : M2) : M2 :=
  ⟨A.m00 * B.m00 + A.m01 * B.m10, A.m00 * B.m01 + A.m01 * B.m11,
   A.m10 * B.m00 + A.m11 * B.m10, A.m10 * B.m01 + A.m11 * B.m11⟩

/-- Entrywise sum (`H + G`). -/
noncomputable def M2.add (A B : M2) : M2 :=
  ⟨A.m00 + B.m00, A.m01 + B.m01, A.m10 + B.m10, A.m11 + B.m11⟩

/-- Entrywise difference (`P - OldP`). -/
noncomputable def M2.sub (A B : M2) : M2 :=
  ⟨A.m00 - B.m00, A.m01 - B.m01, A.m10 - B.m10, A.m11 - B.m11⟩

/-- Transpose (`X.T`). -/
def M2.transpose (A : M2) : M2 := ⟨A.m00, A.m10, A.m01, A.m11⟩

/-- The 2x2x2x2 two-electron tensor; field `vijkl` is entry `[i, j, k, l]`. -/
structure V4 where
  v0000 : ℝ
  v0001 : ℝ
  v0010 : ℝ
  v0011 : ℝ
  v0100 : ℝ
  v0101 : ℝ
  v0110 : ℝ
  v0111 : ℝ
  v1000 : ℝ
  v1001 : ℝ
  v1010 : ℝ
  v1011 : ℝ
  v1100 : ℝ
  v1101 : ℝ
  v1110 : ℝ
  v1111 : ℝ

/-- Entry `[i, j]` of a 2x2 matrix by numeric indices (used to mirror the
`for i in range(2)` loops); indices outside `{0,1}` do not occur. -/
def M2.get (A : M2) (i j : ℕ) : ℝ :=
  match i, j with
  | 0, 0 => A.m00
  | 0, 1 => A.m01
  | 1, 0 => A.m10
  | 1, 1 => A.m11
  | _, _ => 0

/-- Entry `[i, j, k, l]` of the two-electron tensor by numeric indices;
indices outside `{0,1}` do not occur. -/
def V4.get (V : V4) (i j k l : ℕ) : ℝ :=
  match i, j, k, l with
  | 0, 0, 0, 0 => V.v0000
  | 0, 0, 0, 1 => V.v0001
  | 0, 0, 1, 0 => V.v0010
  | 0, 0, 1, 1 => V.v0011
  | 0, 1, 0, 0 => V.v0100
  | 0, 1, 0, 1 => V.v0101
  | 0, 1, 1, 0 => V.v0110
  | 0, 1, 1, 1 => V.v0111
  | 1, 0, 0, 0 => V.v1000
  | 1, 0, 0, 1 => V.v1001
  | 1, 0, 1, 0 => V.v1010
  | 1, 0, 1, 1 => V.v1011
  | 1, 1, 0, 0 => V.v1100
  | 1, 1, 0, 1 => V.v1101
  | 1, 1, 1, 0 => V.v1110
  | 1, 1, 1, 1 => V.v1111
  | _, _, _, _ => 0

/-- `Collect` (`HF.py` line 401): the core Hamiltonian `H`, overlap `S`,
orthogonalization matrix `X` and two-electron tensor `V`.  The `X`
construction reproduces the net effect of the literal assignment sequence of
lines 440-444: `X[0,0] = 1/sqrt(2(1+S12))`; `X[0,1] = X[0,0]` is immediately
overwritten by `X[0,1] = 1/sqrt(2(1-S12))`; `X[1,1] = -X[0,1]`; `X[1,0]`
keeps its `np.zeros` value `0`. -/
noncomputable def Collect (S12 T11 T12 T22 V11H V12H V22H V11He V12He V22He
    V1111 V2111 V2121 V2211 V2221 V2222 : ℝ) : M2 × M2 × M2 × V4 :=
  let H : M2 := ⟨T11 + V11H + V11He, T12 + V12H + V12He,
                 T12 + V12H + V12He, T22 + V22H + V22He⟩
  let S : M2 := ⟨1, S12, S12, 1⟩
  let X : M2 := ⟨1.0 / Real.sqrt (2.0 * (1.0 + S12)),
                 1.0 / Real.sqrt (2.0 * (1.0 - S12)),
                 0,
                 -(1.0 / Real.sqrt (2.0 * (1.0 - S12)))⟩
  let V : V4 := ⟨V1111, V2111, V2111, V2211,
                 V2111, V2121, V2121, V2221,
                 V2111, V2121, V2121, V2221,
                 V2211, V2221, V2221, V2222⟩
  (H, S, X, V)

/-- C7 -- the orthogonalization matrix returned by `Collect` has
`X[0,0] = 1/sqrt(2(1+S12))`, `X[0,1] = 1/sqrt(2(1-S12))` (the overwritten
value, not the textbook `0`), `X[1,0] = 0` and `X[1,1] = -X[0,1]`; under
`|S12| < 1` the off-diagonal `X[0,1]` is indeed nonzero. -/
theorem c7_collect_X (S12 T11 T12 T22 V11H V12H V22H V11He V12He V22He
    V1111 V2111 V2121 V2211 V2221 V2222 : ℝ) (h : |S12| < 1) :
    (Collect S12 T11 T12 T22 V11H V12H V22H V11He V12He V22He
      V1111 V2111 V2121 V2211 V2221 V2222).2.2.1.m00 =
        1.0 / Real.sqrt (2.0 * (1.0 + S12)) ∧
    (Collect S12 T11 T12 T22 V11H V12H V22H V11He V12He V22He
      V1111 V2111 V2121 V2211 V2221 V2222).2.2.1.m01 =
        1.0 / Real.sqrt (2.0 * (1.0 - S12)) ∧
    (Collect S12 T11 T12 T22 V11H V12H V22H V11He V12He V22He
      V1111 V2111 V2121 V2211 V2221 V2222).2.2.1.m10 = 0 ∧
    (Collect S12 T11 T12 T22 V11H V12H V22H V11He V12He V22He
      V1111 V2111 V2121 V2211 V2221 V2222).2.2.1.m11 =
        -(Collect S12 T11 T12 T22 V11H V12H V22H V11He V12He V22He
          V1111 V2111 V2121 V2211 V2221 V2222).2.2.1.m01 ∧
    (Collect S12 T11 T12 T22 V11H V12H V22H V11He V12He V22He
      V1111 V2111 V2121 V2211 V2221 V2222).2.2.1.m01 ≠ 0 := by
  have hpos : 0 < Real.sqrt (2.0 * (1.0 - S12)) := by
    apply Real.sqrt_pos.mpr
    have h1 : S12 < 1 := lt_of_le_of_lt (le_abs_self S12) h
    norm_num
    linarith
  refine ⟨rfl, rfl, rfl, rfl, ?_⟩
  show (1.0 : ℝ) / Real.sqrt (2.0 * (1.0 - S12)) ≠ 0
  intro hz
  rcases div_eq_zero_iff.mp hz with h1 | h2
  · norm_num at h1
  · exact ne_of_gt hpos h2

/-- C7 witness -- instance at `S12 = 0` (all other integrals `0`). -/
theorem c7_collect_X_witness :
    |(0 : ℝ)| < 1 ∧
    ((Collect 0 0 0 0 0 0 0 0 0 0 0 0 0 0 0 0).2.2.1.m00 =
        1.0 / Real.sqrt (2.0 * (1.0 + 0)) ∧
      (Collect 0 0 0 0 0 0 0 0 0 0 0 0 0 0 0 0).2.2.1.m01 =
        1.0 / Real.sqrt (2.0 * (1.0 - 0)) ∧
      (Collect 0 0 0 0 0 0 0 0 0 0 0 0 0 0 0 0).2.2.1.m10 = 0 ∧
      (Collect 0 0 0 0 0 0 0 0 0 0 0 0 0 0 0 0).2.2.1.m11 =
        -(Collect 0 0 0 0 0 0 0 0 0 0 0 0 0 0 0 0).2.2.1.m01 ∧
      (Collect 0 0 0 0 0 0 0 0 0 0 0 0 0 0 0 0).2.2.1.m01 ≠ 0) :=
  ⟨by norm_num, c7_collect_X 0 0 0 0 0 0 0 0 0 0 0 0 0 0 0 0 (by norm_num)⟩

/-! ## The 2x2 Jacobi diagonalizer `Diag` (`HF.py` lines 560-600) -/

/-- The rotation angle (`HF.py` lines 565-568): `0.5 * atan(2*F01/(F00-F11))`
when the diagonal entries differ by more than `1e-20` in absolute value,
otherwise `pi/4`. -/
noncomputable def DiagTheta (F : M2) : ℝ :=
  if 1.0e-20 < |F.m00 - F.m11| then
    0.5 * Real.arctan (2.0 * F.m01 / (F.m00 - F.m11))
  else Real.pi / 4.0

/-- The eigenvector matrix before the ordering swap (`HF.py` lines 572-575):
`[[cos t, sin t], [sin t, -cos t]]`. -/
noncomputable def DiagCpre (F : M2) : M2 :=
  ⟨Real.cos (DiagTheta F), Real.sin (DiagTheta F),
   Real.sin (DiagTheta F), -Real.cos (DiagTheta F)⟩

/-- The eigenvalue matrix before the ordering swap (`HF.py` lines 577-588);
the off-diagonal entries are set to `0`. -/
noncomputable def DiagEpre (F : M2) : M2 :=
  ⟨F.m00 * Real.cos (DiagTheta F) ^ 2 + F.m11 * Real.sin (DiagTheta F) ^ 2 +
      F.m01 * Real.sin (2.0 * DiagTheta F),
   0,
   0,
   F.m11 * Real.cos (DiagTheta F) ^ 2 + F.m00 * Real.sin (DiagTheta F) ^ 2 +
      F.m01 * Real.sin (2.0 * DiagTheta F)⟩

/-- `Diag` (`HF.py` line 560): returns `(Cprime, E)`; when `E[1,1] <= E[0,0]`
the diagonal entries of `E` and the diagonal entries of `Cprime` are swapped
— the off-diagonal entries of `Cprime` are left where they are. -/
noncomputable def Diag (F : M2) : M2 × M2 :=
  if (DiagEpre F).m11 ≤ (DiagEpre F).m00 then
    (⟨(DiagCpre F).m11, (DiagCpre F).m01, (DiagCpre F).m10, (DiagCpre F).m00⟩,
     ⟨(DiagEpre F).m11, (DiagEpre F).m01, (DiagEpre F).m10, (DiagEpre F).m00⟩)
  else (DiagCpre F, DiagEpre F)

lemma diagTheta_diagonal_two_one : DiagTheta ⟨2, 0, 0, 1⟩ = 0 := by
  unfold DiagTheta
  rw [if_pos (by norm_num)]
  norm_num [Real.arctan_zero]

/-- C6 -- for a symmetric input `Diag` returns eigenvalues in ascending
order `E[0,0] <= E[1,1]`; when the reordering fires (`Epre[1,1] <=
Epre[0,0]`) only the diagonal entries of `E` and of `Cprime` are
interchanged, the off-diagonal entries staying put; and on the concrete
input `[[2,0],[0,1]]` the returned eigenvalues are `1` and `2`, ascending. -/
theorem c6_diag_ordering (M : M2) (hsym : M.m10 = M.m01) :
    ((Diag M).2.m00 ≤ (Diag M).2.m11 ∧
      ((DiagEpre M).m11 ≤ (DiagEpre M).m00 →
        Diag M =
          (⟨(DiagCpre M).m11, (DiagCpre M).m01, (DiagCpre M).m10, (DiagCpre M).m00⟩,
           ⟨(DiagEpre M).m11, (DiagEpre M).m01, (DiagEpre M).m10, (DiagEpre M).m00⟩))) ∧
    ((Diag ⟨2, 0, 0, 1⟩).2.m00 = 1 ∧ (Diag ⟨2, 0, 0, 1⟩).2.m11 = 2) := by
  constructor
  · constructor
    · unfold Diag
      by_cases h : (DiagEpre M).m11 ≤ (DiagEpre M).m00
      · rw [if_pos h]
        exact h
      · rw [if_neg h]
        exact le_of_not_le h
    · intro h
      unfold Diag
      rw [if_pos h]
  · have hE : DiagEpre ⟨2, 0, 0, 1⟩ = ⟨2, 0, 0, 1⟩ := by
      unfold DiagEpre
      rw [diagTheta_diagonal_two_one]
      norm_num
    constructor
    · show (Diag ⟨2, 0, 0, 1⟩).2.m00 = 1
      unfold Diag
      rw [hE, if_pos (by norm_num)]
    · show (Diag ⟨2, 0, 0, 1⟩).2.m11 = 2
      unfold Diag
      rw [hE, if_pos (by norm_num)]

/-- C6 witness -- instance of the quantified part at the symmetric matrix
`[[2,0],[0,1]]`. -/
theorem c6_diag_ordering_witness :
    (M2.mk 2 0 0 1).m10 = (M2.mk 2 0 0 1).m01 ∧
    ((Diag ⟨2, 0, 0, 1⟩).2.m00 ≤ (Diag ⟨2, 0, 0, 1⟩).2.m11 ∧
      ((DiagEpre ⟨2, 0, 0, 1⟩).m11 ≤ (DiagEpre ⟨2, 0, 0, 1⟩).m00 →
        Diag ⟨2, 0, 0, 1⟩ =
          (⟨(DiagCpre ⟨2, 0, 0, 1⟩).m11, (DiagCpre ⟨2, 0, 0, 1⟩).m01,
            (DiagCpre ⟨2, 0, 0, 1⟩).m10, (DiagCpre ⟨2, 0, 0, 1⟩).m00⟩,
           ⟨(DiagEpre ⟨2, 0, 0, 1⟩).m11, (DiagEpre ⟨2, 0, 0, 1⟩).m01,
            (DiagEpre ⟨2, 0, 0, 1⟩).m10, (DiagEpre ⟨2, 0, 0, 1⟩).m00⟩))) :=
  ⟨rfl, (c6_diag_ordering ⟨2, 0, 0, 1⟩ rfl).1⟩

/-- C10 -- the eigenvector matrix returned by `Diag` always has equal
off-diagonal entries, both equal to `sin` of the rotation angle, whether or
not the ordering swap fires. -/
theorem c10_diag_offdiagonal (M : M2) :
    (Diag M).1.m01 = (Diag M).1.m10 ∧
    (Diag M).1.m01 = Real.sin (DiagTheta M) := by
  unfold Diag
  by_cases h : (DiagEpre M).m11 ≤ (DiagEpre M).m00
  · rw [if_pos h]
    exact ⟨rfl, rfl⟩
  · rw [if_neg h]
    exact ⟨rfl, rfl⟩

/-! ## The SCF iteration (`HF.py` lines 471-557) -/

/-- One entry of the two-electron matrix `G` (`HF.py` lines 492-496):
`G[i,j] = sum over k, l of P[k,l] * (V[i,j,k,l] - 0.5*V[i,l,k,j])`. -/
noncomputable def gEntry (P : M2) (V : V4) (i j : ℕ) : ℝ :=
  P.get 0 0 * (V.get i j 0 0 - 0.5 * V.get i 0 0 j) +
  P.get 0 1 * (V.get i j 0 1 - 0.5 * V.get i 1 0 j) +
  P.get 1 0 * (V.get i j 1 0 - 0.5 * V.get i 0 1 j) +
  P.get 1 1 * (V.get i j 1 1 - 0.5 * V.get i 1 1 j)

/-- The two-electron part of the Fock matrix. -/
noncomputable def buildG (P : M2) (V : V4) : M2 :=
  ⟨gEntry P V 0 0, gEntry P V 0 1, gEntry P V 1 0, gEntry P V 1 1⟩

/-- Electronic energy (`HF.py` lines 503-506):
`sum over i, j of 0.5 * P[i,j] * (H[i,j] + F[i,j])`. -/
noncomputable def scfEnergy (P H F : M2) : ℝ :=
  0.5 * P.m00 * (H.m00 + F.m00) + 0.5 * P.m01 * (H.m01 + F.m01) +
  0.5 * P.m10 * (H.m10 + F.m10) + 0.5 * P.m11 * (H.m11 + F.m11)

/-- `FormDensity` (`HF.py` lines 535-540): the `k`-loop runs over `range(1)`
only, so `P[i,j] = 2.0 * C[i,0] * C[0,j]` — note the second factor is
`C[0,j]`, not `C[j,0]`. -/
noncomputable def formDensity (C : M2) : M2 :=
  ⟨2.0 * C.m00 * C.m00, 2.0 * C.m00 * C.m01,
   2.0 * C.m10 * C.m00, 2.0 * C.m10 * C.m01⟩

/-- `np.sum(Delta ** 2)` for a 2x2 matrix. -/
noncomputable def sumSq (D : M2) : ℝ :=
  D.m00 ^ 2 + D.m01 ^ 2 + D.m10 ^ 2 + D.m11 ^ 2

/-- One SCF loop body up to the density update (`HF.py` lines 488-540):
build `G` from `P`, form the Fock matrix `F = H + G`, compute the
electronic energy, orthogonalize `Fprime = X.T (F X)`, diagonalize, back
transform `C = X Cprime`, and form the new density matrix.  Returns
`(Energy, newP)`. -/
noncomputable def scfStep (H X : M2) (V : V4) (P : M2) : ℝ × M2 :=
  let G := buildG P V
  let F := M2.add H G
  let Energy := scfEnergy P H F
  let Fprime := M2.mul (M2.transpose X) (M2.mul F X)
  let CE := Diag Fprime
  let C := M2.mul X CE.1
  (Energy, formDensity C)

/-- Outcome of the SCF iteration.  `converged` carries the electronic
energy, the reported total energy and the iteration count at which the
convergence test fired; `notConverged` carries the iteration count at which
the cap test fired.  `whileExit` models falling out of the `while` guard
(dead code in the source, kept for fidelity) and `fuelOut` is the
exhaustion of the recursion bound of the embedding (proved unreachable). -/
inductive SCFResult where
  | converged (Eelec Etotal : ℝ) (iter : ℕ)
  | notConverged (iter : ℕ)
  | whileExit
  | fuelOut

/-- The `while Iter <= Maxit` loop of `SCF` (`HF.py` lines 483-557) with
`Crit = 1e-15` and `Maxit = 250`: each pass increments the counter, runs
`scfStep`, and tests `Delta < Crit` (converged) then `Iter >= Maxit`
(give up); otherwise it loops on the new density. -/
noncomputable def scfLoop (H X : M2) (Z_H Z_He R : ℝ) (V : V4) :
    ℕ → ℕ → M2 → SCFResult
  | 0, _, _ => SCFResult.fuelOut
  | fuel + 1, Iter, P =>
    if Iter ≤ 250 then
      if Real.sqrt (sumSq (M2.sub (scfStep H X V P).2 P) / 4.0) < 1e-15 then
        SCFResult.converged (scfStep H X V P).1
          ((scfStep H X V P).1 + Z_H * Z_He / R) (Iter + 1)
      else if 250 ≤ Iter + 1 then SCFResult.notConverged (Iter + 1)
      else scfLoop H X Z_H Z_He R V fuel (Iter + 1) (scfStep H X V P).2
    else SCFResult.whileExit

/-- `SCF` (`HF.py` line 471): the density matrix starts at zero and the
iteration counter at `0`; `251` passes of the loop body are more than the
cap ever allows, so the recursion bound is never reached. -/
noncomputable def SCF (H X : M2) (Z_H Z_He R : ℝ) (V : V4) : SCFResult :=
  scfLoop H X Z_H Z_He R V 251 0 ⟨0, 0, 0, 0⟩

lemma scfLoop_result (H X : M2) (Z_H Z_He R : ℝ) (V : V4) :
    ∀ fuel Iter P, Iter ≤ 249 → 250 ≤ fuel + Iter →
      (∃ E n, scfLoop H X Z_H Z_He R V fuel Iter P =
          SCFResult.converged E (E + Z_H * Z_He / R) n ∧ Iter + 1 ≤ n ∧ n ≤ 250) ∨
      scfLoop H X Z_H Z_He R V fuel Iter P = SCFResult.notConverged 250 := by
  intro fuel
  induction fuel with
  | zero => intro Iter P h1 h2; omega
  | succ fuel ih =>
    intro Iter P h1 h2
    rw [scfLoop, if_pos (by omega : Iter ≤ 250)]
    by_cases hDelta :
        Real.sqrt (sumSq (M2.sub (scfStep H X V P).2 P) / 4.0) < 1e-15
    · rw [if_pos hDelta]
      exact Or.inl ⟨(scfStep H X V P).1, Iter + 1, rfl, le_refl _, by omega⟩
    · rw [if_neg hDelta]
      by_cases hcap : 250 ≤ Iter + 1
      · rw [if_pos hcap]
        right
        have : Iter + 1 = 250 := by omega
        rw [this]
      · rw [if_neg hcap]
        rcases ih (Iter + 1) (scfStep H X V P).2 (by omega) (by omega) with
          ⟨E, n, heq, hn1, hn2⟩ | heq
        · exact Or.inl ⟨E, n, heq, by omega, hn2⟩
        · exact Or.inr heq

/-- C9 -- for every input the SCF loop terminates in at most 250 iterations:
either the convergence test `Delta < 1e-15` fires at some iteration
`n <= 250` and the run reports `converged` with total energy
`E_elec + Z_H*Z_He/R`, or the iteration cap fires and the run reports
`notConverged` at iteration 250. -/
theorem c9_scf_terminates (H X : M2) (Z_H Z_He R : ℝ) (V : V4) :
    (∃ E n, SCF H X Z_H Z_He R V = SCFResult.converged E (E + Z_H * Z_He / R) n ∧
      1 ≤ n ∧ n ≤ 250) ∨
    SCF H X Z_H Z_He R V = SCFResult.notConverged 250 :=
  scfLoop_result H X Z_H Z_He R V 251 0 ⟨0, 0, 0, 0⟩ (by omega) (by omega)

lemma diagTheta_diagonal_one_two : DiagTheta ⟨1, 0, 0, 2⟩ = 0 := by
  unfold DiagTheta
  rw [if_pos (by norm_num)]
  norm_num [Real.arctan_zero]

lemma diag_diagonal_one_two : Diag ⟨1, 0, 0, 2⟩ = (⟨1, 0, 0, -1⟩, ⟨1, 0, 0, 2⟩) := by
  have hC : DiagCpre ⟨1, 0, 0, 2⟩ = ⟨1, 0, 0, -1⟩ := by
    unfold DiagCpre
    rw [diagTheta_diagonal_one_two]
    simp [M2.mk.injEq]
  have hE : DiagEpre ⟨1, 0, 0, 2⟩ = ⟨1, 0, 0, 2⟩ := by
    unfold DiagEpre
    rw [diagTheta_diagonal_one_two]
    norm_num [M2.mk.injEq]
  unfold Diag
  rw [hE, hC, if_neg (by norm_num)]

/-- The first SCF iteration on `H = [[1,1],[1,3]]`, `X = [[1,1],[0,-1]]`,
`V = 0`, starting from the symmetric zero density, produces the density
matrix `[[2,-2],[0,0]]`. -/
lemma scfStep_asym_example :
    (scfStep ⟨1, 1, 1, 3⟩ ⟨1, 1, 0, -1⟩
      ⟨0, 0, 0, 0, 0, 0, 0, 0, 0, 0, 0, 0, 0, 0, 0, 0⟩ ⟨0, 0, 0, 0⟩).2 =
    ⟨2, -2, 0, 0⟩ := by
  have hG : buildG ⟨0, 0, 0, 0⟩ ⟨0, 0, 0, 0, 0, 0, 0, 0, 0, 0, 0, 0, 0, 0, 0, 0⟩ =
      ⟨0, 0, 0, 0⟩ := by
    unfold buildG gEntry
    norm_num [M2.get, M2.mk.injEq]
  have hF : M2.add ⟨1, 1, 1, 3⟩ (⟨0, 0, 0, 0⟩ : M2) = ⟨1, 1, 1, 3⟩ := by
    unfold M2.add
    norm_num [M2.mk.injEq]
  have hFp : M2.mul (M2.transpose ⟨1, 1, 0, -1⟩)
      (M2.mul ⟨1, 1, 1, 3⟩ ⟨1, 1, 0, -1⟩) = ⟨1, 0, 0, 2⟩ := by
    unfold M2.mul M2.transpose
    norm_num [M2.mk.injEq]
  have hBack : M2.mul ⟨1, 1, 0, -1⟩ (⟨1, 0, 0, -1⟩ : M2) = ⟨1, -1, 0, 1⟩ := by
    unfold M2.mul
    norm_num [M2.mk.injEq]
  unfold scfStep
  simp only [hG, hF, hFp, diag_diagonal_one_two, hBack]
  unfold formDensity
  norm_num [M2.mk.injEq]

/-- C5 (amended) -- the SCF density matrix starts from the (symmetric) zero
matrix, and each `FormDensity` step sets `P[0,1] = 2*C[0,0]*C[0,1]` and
`P[1,0] = 2*C[1,0]*C[0,0]`; these need not coincide, so the updated density
matrix is not symmetric in general — already after the first iteration for
some inputs. -/
theorem c5_density_update :
    (∀ C : M2, (formDensity C).m01 = 2.0 * C.m00 * C.m01 ∧
      (formDensity C).m10 = 2.0 * C.m10 * C.m00) ∧
    (M2.mk 0 0 0 0).m01 = (M2.mk 0 0 0 0).m10 ∧
    (∃ H X V P, P.m01 = P.m10 ∧
      ((scfStep H X V P).2).m01 ≠ ((scfStep H X V P).2).m10) := by
  refine ⟨fun C => ⟨rfl, rfl⟩, rfl, ?_⟩
  refine ⟨⟨1, 1, 1, 3⟩, ⟨1, 1, 0, -1⟩,
    ⟨0, 0, 0, 0, 0, 0, 0, 0, 0, 0, 0, 0, 0, 0, 0, 0⟩, ⟨0, 0, 0, 0⟩, rfl, ?_⟩
  rw [scfStep_asym_example]
  norm_num

/-- C5 counterexample -- with `H = [[1,1],[1,3]]`, `X = [[1,1],[0,-1]]`,
`V = 0` the density matrix formed by the very first SCF iteration has
`P[0,1] = -2` but `P[1,0] = 0`, refuting the claimed symmetry invariant. -/
theorem c5_counterexample :
    ((scfStep ⟨1, 1, 1, 3⟩ ⟨1, 1, 0, -1⟩
        ⟨0, 0, 0, 0, 0, 0, 0, 0, 0, 0, 0, 0, 0, 0, 0, 0⟩ ⟨0, 0, 0, 0⟩).2).m01 ≠
    ((scfStep ⟨1, 1, 1, 3⟩ ⟨1, 1, 0, -1⟩
        ⟨0, 0, 0, 0, 0, 0, 0, 0, 0, 0, 0, 0, 0, 0, 0, 0⟩ ⟨0, 0, 0, 0⟩).2).m10 := by
  rw [scfStep_asym_example]
  norm_num

/-! ## The driver `HFCALC` (`HF.py` lines 606-650) -/

/-- The argument tuple `HFCALC` hands to `AO_Integral` (`HF.py` line 628):
the call reads `AO_Integral(N, R, Zeta1, Z_H, Z_H, Z_He)`, so the fourth
position — the declared `Zeta2` parameter — receives `Z_H`, and the declared
`Zeta2` of `HFCALC` is never used. -/
def AOcallArgs (N : ℤ) (R Zeta1 Zeta2 Z_H Z_He : ℝ) : ℤ × ℝ × ℝ × ℝ × ℝ × ℝ :=
  (N, R, Zeta1, Z_H, Z_H, Z_He)

/-- `HFCALC` (`HF.py` line 606): assemble the AO integrals with the argument
tuple above, collect them into `H`, `S`, `X`, `V`, and run the SCF
iteration `SCF(H, X, Z_H, Z_He, R, V)`. -/
noncomputable def HFCALC (N : ℤ) (R Zeta1 Zeta2 Z_H Z_He : ℝ) :
    Except String SCFResult :=
  let a := AOcallArgs N R Zeta1 Zeta2 Z_H Z_He
  match AO_Integral a.1 a.2.1 a.2.2.1 a.2.2.2.1 a.2.2.2.2.1 a.2.2.2.2.2 with
  | .error e => .error e
  | .ok t =>
    let hxv := Collect t.S12 t.T11 t.T12 t.T22 t.V11H t.V12H t.V22H t.V11He
      t.V12He t.V22He t.V1111 t.V2111 t.V2121 t.V2211 t.V2221 t.V2222
    .ok (SCF hxv.1 hxv.2.2.1 Z_H Z_He R hxv.2.2.2)

/-- C3 (amended) -- `HFCALC` passes `Z_H`, the first nuclear charge (not
`Zeta1`), in the `Zeta2` parameter position of `AO_Integral`, with all other
arguments in their declared positions; consequently the `Zeta2` input of
`HFCALC` has no effect on the result. -/
theorem c3_hfcalc_args (N : ℤ) (R Zeta1 Zeta2 Zeta2' Z_H Z_He : ℝ) :
    AOcallArgs N R Zeta1 Zeta2 Z_H Z_He = (N, R, Zeta1, Z_H, Z_H, Z_He) ∧
    HFCALC N R Zeta1 Zeta2 Z_H Z_He = HFCALC N R Zeta1 Zeta2' Z_H Z_He :=
  ⟨rfl, rfl⟩

/-- C3 counterexample -- at the program's own inputs (`N = 3`,
`R = 1.4632`, `Zeta1 = 2.0925`, `Zeta2 = 1.24`, `Z_H = 1`, `Z_He = 2`) the
tuple passed to `AO_Integral` is **not** the one the claim describes
(`Zeta1` in the fourth position): the fourth argument is `Z_H = 1`,
not `Zeta1 = 2.0925`. -/
theorem c3_counterexample :
    AOcallArgs 3 1.4632 2.0925 1.24 1 2 ≠
      ((3 : ℤ), (1.4632 : ℝ), (2.0925 : ℝ), (2.0925 : ℝ), (1 : ℝ), (2 : ℝ)) := by
  intro h
  norm_num [AOcallArgs, Prod.ext_iff] at h

end HF
